import Mathlib

/-!
Shallow embedding of `rl/callbacks.py` (keras-rl callbacks module).

Modelling conventions:
* Python floats are modelled as `Option ℚ` (`NFloat`): `none` stands for NaN,
  `some q` for the finite value `q`.  The claims under verification are about
  NaN propagation and structural equalities of means, not about rounding, so
  exact rationals are adequate.
* Python dicts keyed by episode id (or by column name) are modelled as
  association lists (`alookup`/`aset`/`aerase` below); a dict access that can
  raise `KeyError` is modelled in `Except PyErr`.
* `assert` statements, `KeyError`, `ValueError` (numpy reductions over empty
  arrays), `AttributeError` (missing method) and `ZeroDivisionError` are
  modelled as the corresponding `PyErr` constructors.
* `print` output is modelled as a list of structured `Line` values carrying
  the numbers that the Python format string would render.
* `np.argsort` is modelled as a stable index sort (`argsort` below); on
  duplicate-free keys any sorting permutation produces the same sorted column,
  and the "same permutation applied to every column" property is independent
  of how ties are broken, so the stable model is faithful for the claims.
-/

namespace KerasRL

/-- A Python float that may be NaN: `none` is NaN. -/
abbrev NFloat := Option ℚ

/-- Error classes raised by the Python code paths we model. -/
inductive PyErr where
  | assertionError
  | keyError
  | valueError
  | attributeError
  | indexError
  | zeroDivisionError
  deriving DecidableEq, Repr

/-! ### Association lists standing in for Python dicts -/

/-- `d[k]` lookup: first binding for `k`, if any. -/
def alookup {κ α : Type} [DecidableEq κ] (k : κ) : List (κ × α) → Option α
  | [] => none
  | (k', v) :: rest => if k = k' then some v else alookup k rest

/-- `d[k] = v`: overwrite in place, or append a fresh binding. -/
def aset {κ α : Type} [DecidableEq κ] (k : κ) (v : α) : List (κ × α) → List (κ × α)
  | [] => [(k, v)]
  | (k', v') :: rest => if k = k' then (k', v) :: rest else (k', v') :: aset k v rest

/-- `del d[k]`: remove the binding for `k`. -/
def aerase {κ α : Type} [DecidableEq κ] (k : κ) : List (κ × α) → List (κ × α)
  | [] => []
  | (k', v') :: rest => if k = k' then rest else (k', v') :: aerase k rest

/-- Lift a dict access that raises `KeyError` when the key is absent. -/
def getKey {κ α : Type} [DecidableEq κ] (k : κ) (d : List (κ × α)) : Except PyErr α :=
  match alookup k d with
  | some v => .ok v
  | none => .error .keyError

/-! ### NaN-aware numpy reductions -/

/-- `np.nanmean` over a 1-D array: mean of the non-NaN entries, NaN if none. -/
def nanmean (l : List NFloat) : NFloat :=
  let xs := l.filterMap id
  if xs.isEmpty then none else some (xs.sum / xs.length)

/-- Column `idx` of a rectangular list of rows. -/
def column (rows : List (List NFloat)) (idx : Nat) : List NFloat :=
  rows.map (fun r => r.getD idx none)

/-- `np.nanmean(rows, axis=0)[idx]`. -/
def nanmeanCol (rows : List (List NFloat)) (idx : Nat) : NFloat :=
  nanmean (column rows idx)

/-- `np.isnan(rows).all()` over a matrix. -/
def allNaN (rows : List (List NFloat)) : Bool :=
  rows.all (fun r => r.all (fun x => x.isNone))

/-- `np.sum` over a 1-D array (0 on empty, as in numpy). -/
def npSum (l : List ℚ) : ℚ := l.sum

/-- `np.mean` (the caller guards against the empty case). -/
def npMean (l : List ℚ) : ℚ := l.sum / l.length

/-- `np.min` (the caller raises `ValueError` on the empty case). -/
def npMin (l : List ℚ) : ℚ := l.foldr min (l.headD 0)

/-- `np.max` (the caller raises `ValueError` on the empty case). -/
def npMax (l : List ℚ) : ℚ := l.foldr max (l.headD 0)

/-! ### argsort -/

/-- numpy's comparison on possibly-NaN keys: NaN sorts last. -/
def nfLe (a b : NFloat) : Bool :=
  match a, b with
  | some x, some y => decide (x ≤ y)
  | some _, none => true
  | none, some _ => false
  | none, none => true

/-- `np.argsort(ep)`: the list of indexes `0, …, ep.length - 1` reordered so
that reading `ep` through it is non-decreasing. -/
def argsort (ep : List NFloat) : List Nat :=
  List.insertionSort (fun i j => nfLe (ep.getD i none) (ep.getD j none) = true)
    (List.range ep.length)

/-! ### CallbackList (dispatcher) -/

/-- The four lifecycle events whose dispatch `CallbackList` overrides. -/
inductive EventKind where
  | episodeBegin
  | episodeEnd
  | stepBegin
  | stepEnd
  deriving DecidableEq, Repr

/-- The hook name the dispatcher probes for first. -/
def preferredHook : EventKind → String
  | .episodeBegin => "on_episode_begin"
  | .episodeEnd => "on_episode_end"
  | .stepBegin => "on_step_begin"
  | .stepEnd => "on_step_end"

/-- The Keras-era fallback hook name used when the preferred one is absent. -/
def legacyHook : EventKind → String
  | .episodeBegin => "on_epoch_begin"
  | .episodeEnd => "on_epoch_end"
  | .stepBegin => "on_batch_begin"
  | .stepEnd => "on_batch_end"

/-- A registered callback object, seen through Python attribute probing:
`hasHook name` is `callable(getattr(cb, name, None))`. -/
structure PyObj where
  hasHook : String → Bool

/-- One iteration of a `CallbackList` dispatch loop body: probe the preferred
hook; if absent, access the legacy hook unconditionally (raising
`AttributeError` when that attribute does not exist either).  Returns the name
of the hook actually invoked. -/
def dispatchOne (cb : PyObj) (ev : EventKind) : Except PyErr String :=
  if cb.hasHook (preferredHook ev) then .ok (preferredHook ev)
  else if cb.hasHook (legacyHook ev) then .ok (legacyHook ev)
  else .error .attributeError

/-- The full dispatch loop over the registered callbacks, in registration
order; a raised exception propagates and aborts the loop. -/
def dispatchAll (cbs : List PyObj) (ev : EventKind) : Except PyErr (List String) :=
  match cbs with
  | [] => .ok []
  | cb :: rest => do
    let h ← dispatchOne cb ev
    let hs ← dispatchAll rest ev
    .ok (h :: hs)

/-! ### TrainEpisodeLogger -/

/-- The step-end log mapping consumed by the loggers (`logs['episode']`,
`logs['observation']`, `logs['reward']`, `logs['action']`, `logs['metrics']`).
Observations and actions are modelled as single rationals: only their count
and their aggregate statistics matter to the claims. -/
structure StepLogs where
  episode : Nat
  observation : ℚ
  reward : ℚ
  action : ℚ
  metrics : List NFloat
  deriving DecidableEq, Repr

structure TELState where
  episodeStart : List (Nat × ℚ)
  observations : List (Nat × List ℚ)
  rewards : List (Nat × List ℚ)
  actions : List (Nat × List ℚ)
  metrics : List (Nat × List (List NFloat))
  step : Nat
  metricsNames : List String
  nbSteps : Nat
  deriving DecidableEq, Repr

/-- The values interpolated into the episode-summary format string. -/
structure EpisodeSummary where
  step : Nat
  nbSteps : Nat
  episode : Nat
  duration : ℚ
  episodeSteps : Nat
  sps : ℚ
  episodeReward : ℚ
  rewardMean : ℚ
  rewardMin : ℚ
  rewardMax : ℚ
  actionMean : ℚ
  actionMin : ℚ
  actionMax : ℚ
  obsMean : ℚ
  obsMin : ℚ
  obsMax : ℚ
  metricsText : List (String × NFloat)
  deriving DecidableEq, Repr

/-- One printed line; `debugInt` is the stray `print nb_step_digits`
statement, `summary` the formatted episode line (a `none` metric renders
as the placeholder `--`). -/
inductive Line where
  | debugInt (n : Nat)
  | summary (s : EpisodeSummary)
  deriving DecidableEq, Repr

/-- `int(np.ceil(np.log10(n)))` for `n ≥ 1`: the least `k` with `n ≤ 10 ^ k`
(searched over `0, …, n`, which always suffices since `n ≤ 10 ^ n`). -/
def ceilLog10 (n : Nat) : Nat :=
  (((List.range (n + 1)).find? (fun k => n ≤ 10 ^ k)).getD 0)

def tel_on_episode_begin (s : TELState) (episode : Nat) (now : ℚ) : TELState :=
  { s with episodeStart := aset episode now s.episodeStart,
           observations := aset episode [] s.observations,
           rewards := aset episode [] s.rewards,
           actions := aset episode [] s.actions,
           metrics := aset episode [] s.metrics }

def tel_on_step_end (s : TELState) (logs : StepLogs) : Except PyErr TELState := do
  let obs ← getKey logs.episode s.observations
  let rew ← getKey logs.episode s.rewards
  let act ← getKey logs.episode s.actions
  let mets ← getKey logs.episode s.metrics
  .ok { s with
        observations := aset logs.episode (obs ++ [logs.observation]) s.observations,
        rewards := aset logs.episode (rew ++ [logs.reward]) s.rewards,
        actions := aset logs.episode (act ++ [logs.action]) s.actions,
        metrics := aset logs.episode (mets ++ [logs.metrics]) s.metrics,
        step := s.step + 1 }

/-- The metric-formatting loop of `TrainEpisodeLogger.on_episode_end`:
`np.nanmean(metrics[:, idx])` per metric, with an all-NaN column caught (the
promoted warning) and shown as the `--` placeholder (`none` here).  Indexing
an empty or too-narrow array raises `IndexError`. -/
def formatMetrics (names : List String) (mets : List (List NFloat)) :
    Except PyErr (List (String × NFloat)) :=
  if names.isEmpty then .ok []
  else if mets.isEmpty then .error .indexError
  else if (mets.headD []).length < names.length then .error .indexError
  else .ok (names.enum.map (fun p => (p.2, nanmeanCol mets p.1)))

def tel_on_episode_end (s : TELState) (episode : Nat) (now : ℚ) :
    Except PyErr (TELState × List Line) := do
  let start ← getKey episode s.episodeStart
  let obs ← getKey episode s.observations
  let mets ← getKey episode s.metrics
  let mtext ← formatMetrics s.metricsNames mets
  let rew ← getKey episode s.rewards
  let act ← getKey episode s.actions
  if rew.isEmpty ∨ act.isEmpty ∨ obs.isEmpty then .error .valueError
  else if now - start = 0 then .error .zeroDivisionError
  else
    .ok ({ s with episodeStart := aerase episode s.episodeStart,
                  observations := aerase episode s.observations,
                  rewards := aerase episode s.rewards,
                  actions := aerase episode s.actions,
                  metrics := aerase episode s.metrics },
         [Line.debugInt (ceilLog10 s.nbSteps + 1),
          Line.summary { step := s.step, nbSteps := s.nbSteps, episode := episode + 1,
                         duration := now - start, episodeSteps := obs.length,
                         sps := (obs.length : ℚ) / (now - start),
                         episodeReward := npSum rew,
                         rewardMean := npMean rew, rewardMin := npMin rew,
                         rewardMax := npMax rew,
                         actionMean := npMean act, actionMin := npMin act,
                         actionMax := npMax act,
                         obsMean := npMean obs, obsMin := npMin obs,
                         obsMax := npMax obs,
                         metricsText := mtext }])

/-- Events delivered to a `TrainEpisodeLogger`. -/
inductive TELEvent where
  | episodeBegin (episode : Nat) (now : ℚ)
  | stepEnd (logs : StepLogs)
  | episodeEnd (episode : Nat) (now : ℚ)
  deriving DecidableEq, Repr

def telStep (s : TELState) : TELEvent → Except PyErr (TELState × List Line)
  | .episodeBegin e now => .ok (tel_on_episode_begin s e now, [])
  | .stepEnd logs => (tel_on_step_end s logs).map (fun s' => (s', []))
  | .episodeEnd e now => tel_on_episode_end s e now

def telRun (s : TELState) : List TELEvent → Except PyErr (TELState × List Line)
  | [] => .ok (s, [])
  | ev :: rest => do
    let r₁ ← telStep s ev
    let r₂ ← telRun r₁.1 rest
    .ok (r₂.1, r₁.2 ++ r₂.2)

/-- Does this event begin or end episode `e`? -/
def touchesEpisode (e : Nat) : TELEvent → Bool
  | .episodeBegin e' _ => e' == e
  | .episodeEnd e' _ => e' == e
  | .stepEnd _ => false

/-- Is this a step-end event carrying episode id `e`? -/
def isStepFor (e : Nat) : TELEvent → Bool
  | .stepEnd logs => logs.episode == e
  | _ => false

/-- The projection `f` of each step-end event for episode `e`, in order. -/
def stepField {α : Type} (f : StepLogs → α) (e : Nat) (evs : List TELEvent) : List α :=
  evs.filterMap (fun ev => match ev with
    | .stepEnd logs => if logs.episode = e then some (f logs) else none
    | _ => none)

/-! ### TrainIntervalLogger -/

structure TILState where
  interval : Nat
  step : Nat
  metricsNames : List String
  metrics : List (List NFloat)
  deriving DecidableEq, Repr

/-- The NaN-substitution loop of `TrainIntervalLogger.on_step_end`, non-error
case (the loop's `filtered_metrics`): a non-NaN entry is kept; a NaN entry is
replaced by `np.nanmean(self.metrics, axis=0)[idx]` when the interval history
is non-empty and not entirely NaN, and stays NaN otherwise. -/
def substPure (history : List (List NFloat)) (v : List NFloat) : List NFloat :=
  v.enum.map (fun p =>
    match p.2 with
    | some q => some q
    | none =>
      if !history.isEmpty && !allNaN history then nanmeanCol history p.1 else none)

/-- The same loop with its error path: the `means.shape` assertion fires when
the means are first computed (some entry is NaN while usable history exists)
and the history row width disagrees with the metric-name count. -/
def substituteNaNs (namesLen : Nat) (history : List (List NFloat)) (v : List NFloat) :
    Except PyErr (List NFloat) :=
  if (!history.isEmpty && !allNaN history) && v.any Option.isNone &&
      ((history.headD []).length != namesLen) then
    .error .assertionError
  else
    .ok (substPure history v)

/-- One progress-bar update: the position and the `(label, value)` pairs. -/
structure ProgbarUpdate where
  position : Nat
  values : List (String × NFloat)
  deriving DecidableEq, Repr

def til_on_step_end (s : TILState) (reward : ℚ) (stepMetrics : List NFloat) :
    Except PyErr (TILState × ProgbarUpdate) := do
  let filtered ← substituteNaNs s.metricsNames.length s.metrics stepMetrics
  let values := ("reward", (some reward : NFloat)) ::
    (if filtered.any Option.isNone then [] else s.metricsNames.zip filtered)
  .ok ({ s with step := s.step + 1, metrics := s.metrics ++ [stepMetrics] },
       { position := (s.step % s.interval) + 1, values := values })

/-! ### FileLogger -/

structure FileHandle where
  content : List Char
  isOpen : Bool
  deriving DecidableEq, Repr

structure FLState where
  save_continiously : Bool
  metricsNames : List String
  metrics : List (Nat × List (List NFloat))
  starts : List (Nat × ℚ)
  data : List (String × List NFloat)
  file : FileHandle
  deriving DecidableEq, Repr

/-- Deterministic rendering of one value, NaN included (`json.dump` emits the
token `NaN`); rationals render as `num/den`, which is deterministic — the
only property of the serializer the claims rely on. -/
def renderNF : NFloat → String
  | none => "NaN"
  | some q => toString q.num ++ "/" ++ toString q.den

/-- Deterministic JSON-object rendering of the column table. -/
def renderJson (t : List (String × List NFloat)) : String :=
  "\x7b" ++ String.intercalate ", "
    (t.map (fun kv =>
      "\"" ++ kv.1 ++ "\": [" ++ String.intercalate ", " (kv.2.map renderNF) ++ "]"))
  ++ "\x7d"

/-- `self.file.seek(0); json.dump(...)`: overwrite from offset zero, keeping
any trailing bytes of a previously longer content (the code relies on the
file only ever growing). -/
def fileWrite0 (f : FileHandle) (s : String) : FileHandle :=
  { f with content := s.toList ++ f.content.drop s.toList.length }

/-- The sorting half of `save_data`: assert an `episode` column exists,
argsort it, assert every column has the same length as the index vector, and
reorder every column by the same index permutation. -/
def sortedTable (data : List (String × List NFloat)) :
    Except PyErr (List (String × List NFloat)) :=
  match alookup "episode" data with
  | none => .error .assertionError
  | some ep =>
    let idxs := argsort ep
    if data.all (fun kv => kv.2.length == idxs.length) then
      .ok (data.map (fun kv => (kv.1, idxs.map (fun i => kv.2.getD i none))))
    else .error .assertionError

def save_data (s : FLState) : Except PyErr FLState :=
  if s.data.isEmpty then .ok s
  else do
    let t ← sortedTable s.data
    .ok { s with file := fileWrite0 s.file (renderJson t) }

def fl_on_train_begin (s : FLState) (names : List String) : FLState :=
  { s with metricsNames := names, file := { content := [], isOpen := true } }

def fl_on_train_end (s : FLState) : Except PyErr FLState := do
  let s' ← save_data s
  .ok { s' with file := { s'.file with isOpen := false } }

def fl_on_episode_begin (s : FLState) (episode : Nat) (now : ℚ) : Except PyErr FLState :=
  if (alookup episode s.metrics).isSome then .error .assertionError
  else if (alookup episode s.starts).isSome then .error .assertionError
  else .ok { s with metrics := aset episode [] s.metrics,
                    starts := aset episode now s.starts }

/-- `data[key] = []` if absent, then `data[key].append(value)`. -/
def appendCol (k : String) (v : NFloat) :
    List (String × List NFloat) → List (String × List NFloat)
  | [] => [(k, [v])]
  | (k', vs) :: rest =>
    if k = k' then (k', vs ++ [v]) :: rest else (k', vs) :: appendCol k v rest

def fl_on_episode_end (s : FLState) (episode : Nat) (logs : List (String × NFloat))
    (now : ℚ) : Except PyErr FLState := do
  let start ← getKey episode s.starts
  let mets ← getKey episode s.metrics
  let meanMetrics := if allNaN mets then s.metricsNames.map (fun _ => (none : NFloat))
    else (List.range (mets.headD []).length).map (fun idx => nanmeanCol mets idx)
  if meanMetrics.length = s.metricsNames.length then
    let rows := s.metricsNames.zip meanMetrics ++ logs
      ++ [("episode", (some (episode : ℚ) : NFloat)), ("duration", some (now - start))]
    let data' := rows.foldl (fun d kv => appendCol kv.1 kv.2 d) s.data
    let s₁ := { s with data := data' }
    let s₂ ← if s.save_continiously then save_data s₁ else .ok s₁
    .ok { s₂ with metrics := aerase episode s₂.metrics, starts := aerase episode s₂.starts }
  else .error .assertionError

def fl_on_step_end (s : FLState) (logs : StepLogs) : Except PyErr FLState := do
  let cur ← getKey logs.episode s.metrics
  .ok { s with metrics := aset logs.episode (cur ++ [logs.metrics]) s.metrics }

/-- The hook `dispatchOne` resolves to when at least one of the two exists. -/
def chooseHook (cb : PyObj) (ev : EventKind) : String :=
  if cb.hasHook (preferredHook ev) then preferredHook ev else legacyHook ev

/-- The episode reward carried by the first summary line of a printed batch. -/
def summaryRewardOf (lines : List Line) : Option ℚ :=
  (lines.filterMap (fun l => match l with
    | .summary s => some s.episodeReward
    | _ => none)).head?

/-- A fresh `TrainEpisodeLogger` after `on_train_begin` (captures the metric
names and step budget; all per-episode dicts empty, global step 0). -/
def telInit (names : List String) (nbSteps : Nat) : TELState :=
  { episodeStart := [], observations := [], rewards := [], actions := [],
    metrics := [], step := 0, metricsNames := names, nbSteps := nbSteps }

/-- A fresh `FileLogger` after `on_train_begin` (empty dicts and table, file
open and truncated). -/
def flInit (names : List String) : FLState :=
  { save_continiously := false, metricsNames := names, metrics := [],
    starts := [], data := [], file := { content := [], isOpen := true } }

/-! ## Helper lemmas -/

theorem exceptBind_ok {ε α β : Type} (a : α) (f : α → Except ε β) :
    (Except.ok a >>= f : Except ε β) = f a := rfl

theorem exceptBind_error {ε α β : Type} (e : ε) (f : α → Except ε β) :
    ((Except.error e : Except ε α) >>= f) = .error e := rfl

theorem alookup_aset_self {κ α : Type} [DecidableEq κ] (k : κ) (v : α) :
    ∀ l : List (κ × α), alookup k (aset k v l) = some v
  | [] => by simp [alookup, aset]
  | (k', v') :: rest => by
    by_cases h : k = k' <;> simp [alookup, aset, h, alookup_aset_self k v rest]

theorem alookup_aset_ne {κ α : Type} [DecidableEq κ] {k k' : κ} (v : α)
    (h : k ≠ k') : ∀ l : List (κ × α), alookup k (aset k' v l) = alookup k l
  | [] => by simp [alookup, aset, h]
  | (k'', v'') :: rest => by
    by_cases h1 : k' = k'' <;> by_cases h2 : k = k'' <;>
      simp_all [alookup, aset, alookup_aset_ne v h rest]

theorem alookup_aerase_ne {κ α : Type} [DecidableEq κ] {k k' : κ}
    (h : k ≠ k') : ∀ l : List (κ × α), alookup k (aerase k' l) = alookup k l
  | [] => by simp [alookup, aerase]
  | (k'', v'') :: rest => by
    by_cases h1 : k' = k'' <;> by_cases h2 : k = k'' <;>
      simp_all [alookup, aerase, alookup_aerase_ne h rest]

theorem getKey_some {κ α : Type} [DecidableEq κ] {k : κ} {d : List (κ × α)} {v : α}
    (h : alookup k d = some v) : getKey k d = .ok v := by
  simp [getKey, h]

theorem getKey_none {κ α : Type} [DecidableEq κ] {k : κ} {d : List (κ × α)}
    (h : alookup k d = none) : (getKey k d : Except PyErr α) = .error .keyError := by
  simp [getKey, h]

/-! ## Claim C5 -/

/-- Claim C5: the first `FileLogger.on_episode_begin` for a fresh episode id
succeeds and initializes that episode's metric buffer (to `[]`) and start
time; a second `on_episode_begin` for the same id, with no intervening
`on_episode_end`, fails the `assert episode not in self.metrics` contract
check. -/
theorem fl_double_episode_begin_asserts (s : FLState) (e : Nat) (t t' : ℚ)
    (h1 : alookup e s.metrics = none) (h2 : alookup e s.starts = none) :
    fl_on_episode_begin s e t =
      .ok { s with metrics := aset e [] s.metrics, starts := aset e t s.starts } ∧
    alookup e (aset e ([] : List (List NFloat)) s.metrics) = some [] ∧
    alookup e (aset e t s.starts) = some t ∧
    fl_on_episode_begin
      { s with metrics := aset e [] s.metrics, starts := aset e t s.starts } e t' =
      .error .assertionError := by
  refine ⟨?_, alookup_aset_self e [] s.metrics, alookup_aset_self e t s.starts, ?_⟩
  · simp [fl_on_episode_begin, h1, h2]
  · simp [fl_on_episode_begin, alookup_aset_self]

theorem fl_double_episode_begin_asserts_witness :
    fl_on_episode_begin (flInit ["loss"]) 5 0 =
      .ok { flInit ["loss"] with metrics := aset 5 [] (flInit ["loss"]).metrics,
                                 starts := aset 5 0 (flInit ["loss"]).starts } ∧
    alookup 5 (aset 5 ([] : List (List NFloat)) (flInit ["loss"]).metrics) = some [] ∧
    alookup 5 (aset 5 (0 : ℚ) (flInit ["loss"]).starts) = some 0 ∧
    fl_on_episode_begin
      { flInit ["loss"] with metrics := aset 5 [] (flInit ["loss"]).metrics,
                             starts := aset 5 0 (flInit ["loss"]).starts } 5 1 =
      .error .assertionError :=
  fl_double_episode_begin_asserts (flInit ["loss"]) 5 0 1 rfl rfl

/-! ## Claim C8 (corrected) -/

/-- Claim C8, counterexample to the claim as stated: a step-end event naming
an episode id that was never opened makes both loggers raise `KeyError` (an
uncaught dict lookup), not an `AssertionError`: the abort is real, but it is
not assertion-based. -/
theorem step_end_unopened_keyerror_counterexample :
    tel_on_step_end (telInit ["loss"] 100) ⟨7, 1, 1, 1, [some 1]⟩ =
      .error .keyError ∧
    fl_on_step_end (flInit ["loss"]) ⟨7, 1, 1, 1, [some 1]⟩ = .error .keyError ∧
    ¬ tel_on_step_end (telInit ["loss"] 100) ⟨7, 1, 1, 1, [some 1]⟩ =
        .error .assertionError ∧
    ¬ fl_on_step_end (flInit ["loss"]) ⟨7, 1, 1, 1, [some 1]⟩ =
        .error .assertionError := by
  have h1 : tel_on_step_end (telInit ["loss"] 100) ⟨7, 1, 1, 1, [some 1]⟩ =
      .error .keyError := rfl
  have h2 : fl_on_step_end (flInit ["loss"]) ⟨7, 1, 1, 1, [some 1]⟩ =
      .error .keyError := rfl
  refine ⟨h1, h2, ?_, ?_⟩
  · intro hc; rw [h1] at hc; exact absurd (Except.error.inj hc) (by decide)
  · intro hc; rw [h2] at hc; exact absurd (Except.error.inj hc) (by decide)

/-- Claim C8 as amended: for every step-end event whose log mapping names an
episode id that is not currently open, processing the event aborts via an
uncaught `KeyError` (a missing-key dict access), not via an assertion, and is
not recovered — in both `TrainEpisodeLogger` and `FileLogger`. -/
theorem step_end_unopened_raises_keyerror (s : TELState) (t : FLState)
    (logs : StepLogs)
    (h1 : alookup logs.episode s.observations = none)
    (h2 : alookup logs.episode t.metrics = none) :
    tel_on_step_end s logs = .error .keyError ∧
    fl_on_step_end t logs = .error .keyError := by
  constructor
  · simp [tel_on_step_end, getKey_none h1, exceptBind_error]
  · simp [fl_on_step_end, getKey_none h2, exceptBind_error]

theorem step_end_unopened_raises_keyerror_witness :
    tel_on_step_end (telInit [] 10) ⟨3, 0, 0, 0, []⟩ = .error .keyError ∧
    fl_on_step_end (flInit []) ⟨3, 0, 0, 0, []⟩ = .error .keyError :=
  step_end_unopened_raises_keyerror (telInit [] 10) (flInit []) ⟨3, 0, 0, 0, []⟩ rfl rfl

/-! ## Claim C6 (corrected) -/

/-- Claim C6, counterexample to the claim as stated: a registered callback
implementing neither the preferred nor the legacy hook does not have the call
skipped — the dispatcher unconditionally accesses the legacy attribute and an
`AttributeError` is raised. -/
theorem dispatch_neither_hook_errors :
    dispatchOne ⟨fun _ => false⟩ EventKind.stepEnd = .error .attributeError ∧
    dispatchAll [⟨fun _ => false⟩] EventKind.stepEnd = .error .attributeError ∧
    ¬ ∃ out, dispatchAll [⟨fun _ => false⟩] EventKind.stepEnd = .ok out := by
  refine ⟨rfl, rfl, ?_⟩
  rintro ⟨out, hout⟩
  rw [show dispatchAll [⟨fun _ => false⟩] EventKind.stepEnd =
    .error .attributeError from rfl] at hout
  cases hout

/-- Claim C6 as amended: for every registered callback and dispatched
lifecycle event, the dispatcher invokes the preferred hook when the callback
implements it and otherwise invokes the legacy-named hook; when a callback
implements neither, the dispatch raises an `AttributeError` instead of
skipping the call. -/
theorem dispatch_prefers_then_legacy (cbs : List PyObj) (ev : EventKind) :
    ((∀ cb ∈ cbs, cb.hasHook (preferredHook ev) = true ∨
        cb.hasHook (legacyHook ev) = true) →
      dispatchAll cbs ev = .ok (cbs.map (fun cb => chooseHook cb ev))) ∧
    ((∃ cb ∈ cbs, cb.hasHook (preferredHook ev) = false ∧
        cb.hasHook (legacyHook ev) = false) →
      dispatchAll cbs ev = .error .attributeError) := by
  induction cbs with
  | nil => simp [dispatchAll]
  | cons cb rest ih =>
    constructor
    · intro h
      have hcb := h cb (List.mem_cons_self cb rest)
      have hrest := ih.1 (fun c hc => h c (List.mem_cons_of_mem cb hc))
      rcases hb : cb.hasHook (preferredHook ev) with _ | _
      · rcases hl : cb.hasHook (legacyHook ev) with _ | _
        · rcases hcb with h' | h' <;> simp_all
        · simp [dispatchAll, dispatchOne, hb, hl, exceptBind_ok, hrest,
            chooseHook, List.map_cons]
      · simp [dispatchAll, dispatchOne, hb, exceptBind_ok, hrest,
          chooseHook, List.map_cons]
    · rintro ⟨c, hc, hcp, hcl⟩
      rcases List.mem_cons.mp hc with rfl | hmem
      · simp [dispatchAll, dispatchOne, hcp, hcl, exceptBind_error]
      · rcases hb : cb.hasHook (preferredHook ev) with _ | _
        · rcases hl : cb.hasHook (legacyHook ev) with _ | _
          · simp [dispatchAll, dispatchOne, hb, hl, exceptBind_error]
          · have hrest := ih.2 ⟨c, hmem, hcp, hcl⟩
            simp [dispatchAll, dispatchOne, hb, hl, exceptBind_ok, hrest,
              exceptBind_error]
        · have hrest := ih.2 ⟨c, hmem, hcp, hcl⟩
          simp [dispatchAll, dispatchOne, hb, exceptBind_ok, hrest,
            exceptBind_error]

theorem dispatch_prefers_then_legacy_witness :
    dispatchAll [⟨fun _ => true⟩, ⟨fun n => n == "on_epoch_begin"⟩]
        EventKind.episodeBegin =
      .ok ["on_episode_begin", "on_epoch_begin"] ∧
    dispatchAll [⟨fun _ => true⟩, ⟨fun _ => false⟩] EventKind.episodeBegin =
      .error .attributeError := by
  constructor
  · have h := (dispatch_prefers_then_legacy
      [⟨fun _ => true⟩, ⟨fun n => n == "on_epoch_begin"⟩] EventKind.episodeBegin).1
      (by decide)
    simpa [chooseHook, preferredHook, legacyHook] using h
  · exact (dispatch_prefers_then_legacy
      [⟨fun _ => true⟩, ⟨fun _ => false⟩] EventKind.episodeBegin).2
      ⟨⟨fun _ => false⟩, by simp, rfl, rfl⟩

/-! ## Claim C9 -/

/-- Claim C9: `FileLogger.on_train_end` performs a final save and then closes
the file.  Whenever it returns, the file is closed; when no episode ever
completed (empty data table) the save is a no-op — the state is untouched
except that the file, which `on_train_begin` had opened, is now closed. -/
theorem fl_train_end_saves_and_closes (s s' : FLState) (names : List String)
    (h : fl_on_train_end s = .ok s') :
    s'.file.isOpen = false ∧
    (s.data = [] → s' = { s with file := { s.file with isOpen := false } }) ∧
    (fl_on_train_begin s names).file.isOpen = true := by
  unfold fl_on_train_end at h
  cases hs : save_data s with
  | error e => rw [hs] at h; exact absurd h (by simp [exceptBind_error])
  | ok s₁ =>
    rw [hs, exceptBind_ok] at h
    have hs' : s' = { s₁ with file := { s₁.file with isOpen := false } } :=
      (Except.ok.inj h).symm
    refine ⟨by rw [hs'], ?_, rfl⟩
    intro hd
    have hsave : save_data s = .ok s := by simp [save_data, hd]
    rw [hsave] at hs
    rw [hs', Except.ok.inj hs]

theorem fl_train_end_saves_and_closes_witness :
    ({ flInit ["loss"] with
        file := { (flInit ["loss"]).file with isOpen := false } } : FLState).file.isOpen
      = false ∧
    ((flInit ["loss"]).data = [] →
      ({ flInit ["loss"] with
          file := { (flInit ["loss"]).file with isOpen := false } } : FLState) =
        { flInit ["loss"] with
            file := { (flInit ["loss"]).file with isOpen := false } }) ∧
    (fl_on_train_begin (flInit ["loss"]) ["loss"]).file.isOpen = true :=
  fl_train_end_saves_and_closes (flInit ["loss"])
    { flInit ["loss"] with file := { (flInit ["loss"]).file with isOpen := false } }
    ["loss"] rfl

/-! ## Claim C4 -/

theorem fileWrite0_idem (f : FileHandle) (str : String) :
    fileWrite0 (fileWrite0 f str) str = fileWrite0 f str := by
  simp [fileWrite0]

theorem save_data_ok_elim (s s' : FLState) (h : save_data s = .ok s') :
    (s.data.isEmpty = true ∧ s' = s) ∨
    (s.data.isEmpty = false ∧ ∃ t, sortedTable s.data = .ok t ∧
      s' = { s with file := fileWrite0 s.file (renderJson t) }) := by
  unfold save_data at h
  by_cases hd : s.data.isEmpty
  · rw [if_pos hd] at h
    exact .inl ⟨hd, (Except.ok.inj h).symm⟩
  · rw [if_neg hd] at h
    cases hst : sortedTable s.data with
    | error e => rw [hst, exceptBind_error] at h; cases h
    | ok t =>
      rw [hst, exceptBind_ok] at h
      exact .inr ⟨by simpa using hd, t, rfl, (Except.ok.inj h).symm⟩

/-- Claim C4: calling `save_data` twice in succession, with no mutation of
the data table in between, leaves exactly the same file content (the whole
state, in fact) after the second call as after the first. -/
theorem fl_save_data_idempotent (s s₁ s₂ : FLState)
    (h1 : save_data s = .ok s₁) (h2 : save_data s₁ = .ok s₂) :
    s₂ = s₁ ∧ s₂.file.content = s₁.file.content := by
  suffices hs : s₂ = s₁ by exact ⟨hs, by rw [hs]⟩
  rcases save_data_ok_elim s s₁ h1 with ⟨hd, rfl⟩ | ⟨hd, t, hst, rfl⟩
  · rcases save_data_ok_elim s₁ s₂ h2 with ⟨_, rfl⟩ | ⟨hd', _, _, _⟩
    · rfl
    · rw [hd] at hd'; cases hd'
  · rcases save_data_ok_elim _ s₂ h2 with ⟨hd', rfl⟩ | ⟨_, t', hst', rfl⟩
    · rfl
    · have hdt : ({ s with file := fileWrite0 s.file (renderJson t) } : FLState).data
          = s.data := rfl
      rw [hdt] at hst'
      rw [hst] at hst'
      have htt : t' = t := Except.ok.inj hst'.symm
      subst htt
      simp [fileWrite0_idem]

theorem fl_save_data_idempotent_witness :
    ({ flInit ["loss"] with
        data := [("episode", [some 1])],
        file := { content := (renderJson [("episode", [some 1])]).toList,
                  isOpen := true } } : FLState) =
      { flInit ["loss"] with
          data := [("episode", [some 1])],
          file := { content := (renderJson [("episode", [some 1])]).toList,
                    isOpen := true } } ∧
    ({ flInit ["loss"] with
        data := [("episode", [some 1])],
        file := { content := (renderJson [("episode", [some 1])]).toList,
                  isOpen := true } } : FLState).file.content =
      ({ flInit ["loss"] with
          data := [("episode", [some 1])],
          file := { content := (renderJson [("episode", [some 1])]).toList,
                    isOpen := true } } : FLState).file.content :=
  fl_save_data_idempotent
    { flInit ["loss"] with data := [("episode", [some 1])] }
    { flInit ["loss"] with
        data := [("episode", [some 1])],
        file := { content := (renderJson [("episode", [some 1])]).toList,
                  isOpen := true } }
    { flInit ["loss"] with
        data := [("episode", [some 1])],
        file := { content := (renderJson [("episode", [some 1])]).toList,
                  isOpen := true } }
    rfl rfl

/-! ## Claim C10 -/

theorem tel_on_step_end_ok_elim (s : TELState) (logs : StepLogs) (s' : TELState)
    (h : tel_on_step_end s logs = .ok s') :
    ∃ os rs as ms,
      alookup logs.episode s.observations = some os ∧
      alookup logs.episode s.rewards = some rs ∧
      alookup logs.episode s.actions = some as ∧
      alookup logs.episode s.metrics = some ms ∧
      s' = { s with
        observations := aset logs.episode (os ++ [logs.observation]) s.observations,
        rewards := aset logs.episode (rs ++ [logs.reward]) s.rewards,
        actions := aset logs.episode (as ++ [logs.action]) s.actions,
        metrics := aset logs.episode (ms ++ [logs.metrics]) s.metrics,
        step := s.step + 1 } := by
  unfold tel_on_step_end at h
  cases ho : alookup logs.episode s.observations with
  | none => rw [getKey_none ho, exceptBind_error] at h; cases h
  | some os =>
    rw [getKey_some ho, exceptBind_ok] at h
    cases hr : alookup logs.episode s.rewards with
    | none => rw [getKey_none hr, exceptBind_error] at h; cases h
    | some rs =>
      rw [getKey_some hr, exceptBind_ok] at h
      cases ha : alookup logs.episode s.actions with
      | none => rw [getKey_none ha, exceptBind_error] at h; cases h
      | some as =>
        rw [getKey_some ha, exceptBind_ok] at h
        cases hm : alookup logs.episode s.metrics with
        | none => rw [getKey_none hm, exceptBind_error] at h; cases h
        | some ms =>
          rw [getKey_some hm, exceptBind_ok] at h
          exact ⟨os, rs, as, ms, rfl, rfl, rfl, rfl, (Except.ok.inj h).symm⟩

theorem fl_on_step_end_ok_elim (t : FLState) (logs : StepLogs) (t' : FLState)
    (h : fl_on_step_end t logs = .ok t') :
    ∃ cur, alookup logs.episode t.metrics = some cur ∧
      t' = { t with metrics := aset logs.episode (cur ++ [logs.metrics]) t.metrics } := by
  unfold fl_on_step_end at h
  cases hc : alookup logs.episode t.metrics with
  | none => rw [getKey_none hc, exceptBind_error] at h; cases h
  | some cur =>
    rw [getKey_some hc, exceptBind_ok] at h
    exact ⟨cur, rfl, (Except.ok.inj h).symm⟩

/-- Claim C10: a successful step-end event appends only to the record of the
episode named in the event, increments the global step counter by exactly
one, and leaves every other open episode's transient record unchanged; the
same frame property holds for `FileLogger.on_step_end`, which changes only
the named episode's metric buffer. -/
theorem on_step_end_frame (s : TELState) (t : FLState) (logs : StepLogs)
    (s' : TELState) (t' : FLState)
    (h1 : tel_on_step_end s logs = .ok s')
    (h2 : fl_on_step_end t logs = .ok t') :
    s'.step = s.step + 1 ∧
    (∀ e', e' ≠ logs.episode →
      alookup e' s'.observations = alookup e' s.observations ∧
      alookup e' s'.rewards = alookup e' s.rewards ∧
      alookup e' s'.actions = alookup e' s.actions ∧
      alookup e' s'.metrics = alookup e' s.metrics) ∧
    s'.episodeStart = s.episodeStart ∧
    (∀ os, alookup logs.episode s.observations = some os →
      alookup logs.episode s'.observations = some (os ++ [logs.observation])) ∧
    (∀ e', e' ≠ logs.episode → alookup e' t'.metrics = alookup e' t.metrics) ∧
    (∀ cur, alookup logs.episode t.metrics = some cur →
      alookup logs.episode t'.metrics = some (cur ++ [logs.metrics])) ∧
    t'.starts = t.starts ∧ t'.data = t.data ∧ t'.file = t.file := by
  obtain ⟨os, rs, as, ms, ho, hr, ha, hm, rfl⟩ := tel_on_step_end_ok_elim s logs s' h1
  obtain ⟨cur, hc, rfl⟩ := fl_on_step_end_ok_elim t logs t' h2
  refine ⟨rfl, ?_, rfl, ?_, ?_, ?_, rfl, rfl, rfl⟩
  · intro e' hne
    exact ⟨alookup_aset_ne _ hne _, alookup_aset_ne _ hne _,
      alookup_aset_ne _ hne _, alookup_aset_ne _ hne _⟩
  · intro os' hos'
    rw [ho] at hos'
    cases hos'
    exact alookup_aset_self _ _ _
  · intro e' hne
    exact alookup_aset_ne _ hne _
  · intro cur' hcur'
    rw [hc] at hcur'
    cases hcur'
    exact alookup_aset_self _ _ _

theorem on_step_end_frame_witness :
    (({ telInit ["loss"] 10 with
        episodeStart := [(0, 0), (1, 0)],
        observations := [(0, [1]), (1, [])],
        rewards := [(0, [2]), (1, [])],
        actions := [(0, [3]), (1, [])],
        metrics := [(0, [[some 4]]), (1, [])],
        step := 6 } : TELState)).step = 5 + 1 ∧
    (∀ e', e' ≠ 0 →
      alookup e' ([(0, [1]), (1, [])] : List (Nat × List ℚ)) =
        alookup e' ([(0, []), (1, [])] : List (Nat × List ℚ)) ∧
      alookup e' ([(0, [2]), (1, [])] : List (Nat × List ℚ)) =
        alookup e' ([(0, []), (1, [])] : List (Nat × List ℚ)) ∧
      alookup e' ([(0, [3]), (1, [])] : List (Nat × List ℚ)) =
        alookup e' ([(0, []), (1, [])] : List (Nat × List ℚ)) ∧
      alookup e' ([(0, [[some 4]]), (1, [])] : List (Nat × List (List NFloat))) =
        alookup e' ([(0, []), (1, [])] : List (Nat × List (List NFloat)))) ∧
    ([(0, 0), (1, 0)] : List (Nat × ℚ)) = [(0, 0), (1, 0)] ∧
    (∀ os, alookup 0 ([(0, []), (1, [])] : List (Nat × List ℚ)) = some os →
      alookup 0 ([(0, [1]), (1, [])] : List (Nat × List ℚ)) = some (os ++ [1])) ∧
    (∀ e', e' ≠ 0 →
      alookup e' ([(0, [[some 4]]), (1, [])] : List (Nat × List (List NFloat))) =
        alookup e' ([(0, []), (1, [])] : List (Nat × List (List NFloat)))) ∧
    (∀ cur, alookup 0 ([(0, []), (1, [])] : List (Nat × List (List NFloat))) = some cur →
      alookup 0 ([(0, [[some 4]]), (1, [])] : List (Nat × List (List NFloat))) =
        some (cur ++ [[some 4]])) ∧
    ([] : List (Nat × ℚ)) = [] ∧
    ([] : List (String × List NFloat)) = [] ∧
    ({ content := [], isOpen := true } : FileHandle) = { content := [], isOpen := true } := by
  have h := on_step_end_frame
    { telInit ["loss"] 10 with
      episodeStart := [(0, 0), (1, 0)],
      observations := [(0, []), (1, [])],
      rewards := [(0, []), (1, [])],
      actions := [(0, []), (1, [])],
      metrics := [(0, []), (1, [])],
      step := 5 }
    { flInit ["loss"] with metrics := [(0, []), (1, [])] }
    ⟨0, 1, 2, 3, [some 4]⟩
    { telInit ["loss"] 10 with
      episodeStart := [(0, 0), (1, 0)],
      observations := [(0, [1]), (1, [])],
      rewards := [(0, [2]), (1, [])],
      actions := [(0, [3]), (1, [])],
      metrics := [(0, [[some 4]]), (1, [])],
      step := 6 }
    { flInit ["loss"] with metrics := [(0, [[some 4]]), (1, [])] }
    rfl rfl
  exact h

/-! ## Claim C2 -/

theorem allNaN_eq_true_iff (rows : List (List NFloat)) :
    allNaN rows = true ↔ ∀ row ∈ rows, ∀ x ∈ row, x = none := by
  simp [allNaN, List.all_eq_true, Option.isNone_iff_eq_none]

theorem substPure_getD_nan (history : List (List NFloat)) (v : List NFloat) (idx : Nat)
    (hidx : idx < v.length) (hnan : v.getD idx none = none) :
    (substPure history v).getD idx none =
      (if !history.isEmpty && !allNaN history then nanmeanCol history idx else none) := by
  have hget : v[idx]? = some (v[idx]) := List.getElem?_eq_getElem hidx
  have hv : v[idx]? = some none := by
    rw [List.getD_eq_getElem?_getD, hget] at hnan
    simp only [Option.getD_some] at hnan
    rw [hget, hnan]
  simp [substPure, List.getD_eq_getElem?_getD, List.getElem?_map, List.getElem?_enum, hv]

/-- Claim C2: in `TrainIntervalLogger.on_step_end`, for a metric index whose
current value is NaN: if some prior step of the interval recorded a non-NaN
value at any index, the displayed (substituted) value is the NaN-aware mean of
the prior raw values at that index, and otherwise it stays NaN; the raw
(pre-substitution) vector — not the substituted one — is appended to the
interval history, and the global step counter is incremented. -/
theorem til_nan_substitution (s : TILState) (reward : ℚ) (v : List NFloat) (idx : Nat)
    (hrect : ∀ row ∈ s.metrics, row.length = s.metricsNames.length)
    (hidx : idx < v.length) (hnan : v.getD idx none = none) :
    til_on_step_end s reward v =
      .ok ({ s with step := s.step + 1, metrics := s.metrics ++ [v] },
           { position := (s.step % s.interval) + 1,
             values := ("reward", some reward) ::
               (if (substPure s.metrics v).any Option.isNone then []
                else s.metricsNames.zip (substPure s.metrics v)) }) ∧
    ((∃ row ∈ s.metrics, ∃ x ∈ row, x ≠ none) →
      (substPure s.metrics v).getD idx none = nanmeanCol s.metrics idx) ∧
    ((∀ row ∈ s.metrics, ∀ x ∈ row, x = none) →
      (substPure s.metrics v).getD idx none = none) := by
  have hsub : substituteNaNs s.metricsNames.length s.metrics v =
      .ok (substPure s.metrics v) := by
    unfold substituteNaNs
    rw [if_neg]
    intro hcond
    simp only [Bool.and_eq_true, bne_iff_ne] at hcond
    obtain ⟨⟨huse, _⟩, hne⟩ := hcond
    have hnonempty : s.metrics ≠ [] := by
      intro h0
      rw [h0] at huse
      simp [allNaN] at huse
    have hhead : s.metrics.headD [] ∈ s.metrics := by
      cases hm : s.metrics with
      | nil => exact absurd hm hnonempty
      | cons a l => simp
    exact hne (hrect _ hhead)
  refine ⟨?_, ?_, ?_⟩
  · unfold til_on_step_end
    rw [hsub, exceptBind_ok]
  · rintro ⟨row, hrow, x, hx, hxne⟩
    rw [substPure_getD_nan s.metrics v idx hidx hnan]
    have h1 : s.metrics.isEmpty = false := by
      cases hm : s.metrics with
      | nil => rw [hm] at hrow; cases hrow
      | cons a l => rfl
    have h2 : allNaN s.metrics = false := by
      cases hB : allNaN s.metrics with
      | false => rfl
      | true => exact absurd (((allNaN_eq_true_iff s.metrics).mp hB) row hrow x hx) hxne
    simp [h1, h2]
  · intro hall
    rw [substPure_getD_nan s.metrics v idx hidx hnan]
    by_cases he : s.metrics.isEmpty
    · simp [he]
    · have hT : allNaN s.metrics = true := (allNaN_eq_true_iff s.metrics).mpr hall
      simp [hT]

theorem til_nan_substitution_witness :
    til_on_step_end ⟨10, 3, ["a", "b"], [[some 1, none], [some 3, none]]⟩ 2 [none, none] =
      .ok (⟨10, 4, ["a", "b"], [[some 1, none], [some 3, none], [none, none]]⟩,
           ⟨4, [("reward", some 2)]⟩) ∧
    (substPure [[some 1, none], [some 3, none]] [none, none]).getD 0 none =
      nanmeanCol [[some 1, none], [some 3, none]] 0 ∧
    nanmeanCol [[some 1, none], [some 3, none]] 0 = some 2 := by
  have h := til_nan_substitution ⟨10, 3, ["a", "b"], [[some 1, none], [some 3, none]]⟩
    2 [none, none] 0 (by decide) (by decide) rfl
  refine ⟨?_, h.2.1 (by decide), ?_⟩
  · rw [h.1]
    norm_num [substPure, nanmeanCol, nanmean, column, List.enum, List.enumFrom,
      allNaN, List.filterMap_cons, List.sum_cons]
  · norm_num [nanmeanCol, nanmean, column, List.filterMap_cons, List.sum_cons]

/-! ## Claim C7 (code bug) -/

/-- Claim C7 names a real behavior but the code deviates from it: due to the
stray debug statement `print nb_step_digits` left in
`TrainEpisodeLogger.on_episode_end`, the logger prints TWO lines on every
successful episode-end — first the digit count of the step budget, then the
single formatted summary line the claim describes.  Evaluated here on a
concrete episode (one step, reward 1, `nb_steps = 100`): the output has
length 2, its first line is the debug integer 3, and only its second line is
the summary (whose episode reward is the recorded sum, 1). -/
theorem tel_episode_end_prints_two_lines :
    (tel_on_episode_end
        { telInit ["loss"] 100 with
          episodeStart := [(0, 0)], observations := [(0, [1])],
          rewards := [(0, [1])], actions := [(0, [1])],
          metrics := [(0, [[some 1]])], step := 1 } 0 1).map
      (fun r => r.2.length) = .ok 2 ∧
    (tel_on_episode_end
        { telInit ["loss"] 100 with
          episodeStart := [(0, 0)], observations := [(0, [1])],
          rewards := [(0, [1])], actions := [(0, [1])],
          metrics := [(0, [[some 1]])], step := 1 } 0 1).map
      (fun r => r.2.head?) = .ok (some (Line.debugInt 3)) ∧
    (tel_on_episode_end
        { telInit ["loss"] 100 with
          episodeStart := [(0, 0)], observations := [(0, [1])],
          rewards := [(0, [1])], actions := [(0, [1])],
          metrics := [(0, [[some 1]])], step := 1 } 0 1).map
      (fun r => summaryRewardOf r.2) = .ok (some 1) := by
  have hc : ceilLog10 100 = 2 := by decide
  refine ⟨?_, ?_, ?_⟩ <;>
    norm_num [tel_on_episode_end, telInit, getKey, alookup, formatMetrics,
      nanmeanCol, nanmean, column, hc, npSum, npMean, npMin, npMax,
      summaryRewardOf, exceptBind_ok, Except.map, List.enum, List.enumFrom,
      List.filterMap_cons, List.sum_cons]

/-! ## Claim C3 -/

theorem tel_on_episode_end_ok_elim (s : TELState) (e : Nat) (now : ℚ)
    (r : TELState × List Line) (h : tel_on_episode_end s e now = .ok r) :
    ∃ start obs mets mtext rew act,
      alookup e s.episodeStart = some start ∧
      alookup e s.observations = some obs ∧
      alookup e s.metrics = some mets ∧
      formatMetrics s.metricsNames mets = .ok mtext ∧
      alookup e s.rewards = some rew ∧
      alookup e s.actions = some act ∧
      r = ({ s with episodeStart := aerase e s.episodeStart,
                    observations := aerase e s.observations,
                    rewards := aerase e s.rewards,
                    actions := aerase e s.actions,
                    metrics := aerase e s.metrics },
           [Line.debugInt (ceilLog10 s.nbSteps + 1),
            Line.summary { step := s.step, nbSteps := s.nbSteps, episode := e + 1,
                           duration := now - start, episodeSteps := obs.length,
                           sps := (obs.length : ℚ) / (now - start),
                           episodeReward := npSum rew,
                           rewardMean := npMean rew, rewardMin := npMin rew,
                           rewardMax := npMax rew,
                           actionMean := npMean act, actionMin := npMin act,
                           actionMax := npMax act,
                           obsMean := npMean obs, obsMin := npMin obs,
                           obsMax := npMax obs,
                           metricsText := mtext }]) := by
  unfold tel_on_episode_end at h
  cases h1 : alookup e s.episodeStart with
  | none => rw [getKey_none h1, exceptBind_error] at h; cases h
  | some start =>
    rw [getKey_some h1, exceptBind_ok] at h
    cases h2 : alookup e s.observations with
    | none => rw [getKey_none h2, exceptBind_error] at h; cases h
    | some obs =>
      rw [getKey_some h2, exceptBind_ok] at h
      cases h3 : alookup e s.metrics with
      | none => rw [getKey_none h3, exceptBind_error] at h; cases h
      | some mets =>
        rw [getKey_some h3, exceptBind_ok] at h
        cases h4 : formatMetrics s.metricsNames mets with
        | error err => rw [h4, exceptBind_error] at h; cases h
        | ok mtext =>
          rw [h4, exceptBind_ok] at h
          cases h5 : alookup e s.rewards with
          | none => rw [getKey_none h5, exceptBind_error] at h; cases h
          | some rew =>
            rw [getKey_some h5, exceptBind_ok] at h
            cases h6 : alookup e s.actions with
            | none => rw [getKey_none h6, exceptBind_error] at h; cases h
            | some act =>
              rw [getKey_some h6, exceptBind_ok] at h
              split at h
              · cases h
              · split at h
                · cases h
                · exact ⟨start, obs, mets, mtext, rew, act, rfl, rfl, rfl, h4,
                    rfl, rfl, (Except.ok.inj h).symm⟩

/-- Between events that do not begin or end episode `e`, a run of the
`TrainEpisodeLogger` extends episode `e`'s four transient lists exactly by
the per-step payloads of the step-end events naming `e`, in order. -/
theorem telRun_tracks (e : Nat) :
    ∀ (mid : List TELEvent) (s : TELState) (r : TELState × List Line),
      (∀ ev ∈ mid, touchesEpisode e ev = false) →
      telRun s mid = .ok r →
      ∀ os rs as ms,
        alookup e s.observations = some os →
        alookup e s.rewards = some rs →
        alookup e s.actions = some as →
        alookup e s.metrics = some ms →
        alookup e r.1.observations = some (os ++ stepField StepLogs.observation e mid) ∧
        alookup e r.1.rewards = some (rs ++ stepField StepLogs.reward e mid) ∧
        alookup e r.1.actions = some (as ++ stepField StepLogs.action e mid) ∧
        alookup e r.1.metrics = some (ms ++ stepField StepLogs.metrics e mid)
  | [], s, r, _, hrun, os, rs, as, ms, ho, hr, ha, hm => by
    obtain rfl : (s, ([] : List Line)) = r := Except.ok.inj hrun
    simp [stepField, ho, hr, ha, hm]
  | ev :: rest, s, r, htouch, hrun, os, rs, as, ms, ho, hr, ha, hm => by
    unfold telRun at hrun
    cases hstep : telStep s ev with
    | error err => rw [hstep, exceptBind_error] at hrun; cases hrun
    | ok r₁ =>
      rw [hstep, exceptBind_ok] at hrun
      cases hrest : telRun r₁.1 rest with
      | error err => rw [hrest, exceptBind_error] at hrun; cases hrun
      | ok r₂ =>
        rw [hrest, exceptBind_ok] at hrun
        obtain rfl : (r₂.1, r₁.2 ++ r₂.2) = r := Except.ok.inj hrun
        have htouch1 := htouch ev (List.mem_cons_self ev rest)
        have htouchr := fun ev' hev' => htouch ev' (List.mem_cons_of_mem ev hev')
        cases ev with
        | episodeBegin e' t =>
          have hne : e ≠ e' := by
            simp [touchesEpisode] at htouch1
            exact fun hc => htouch1 hc.symm
          obtain rfl : (tel_on_episode_begin s e' t, ([] : List Line)) = r₁ :=
            Except.ok.inj hstep
          have ih := telRun_tracks e rest (tel_on_episode_begin s e' t) r₂ htouchr hrest
            os rs as ms
            (by simpa [tel_on_episode_begin, alookup_aset_ne _ hne] using ho)
            (by simpa [tel_on_episode_begin, alookup_aset_ne _ hne] using hr)
            (by simpa [tel_on_episode_begin, alookup_aset_ne _ hne] using ha)
            (by simpa [tel_on_episode_begin, alookup_aset_ne _ hne] using hm)
          simpa [stepField, List.filterMap_cons] using ih
        | stepEnd logs =>
          cases hse : tel_on_step_end s logs with
          | error err => rw [telStep, hse] at hstep; cases hstep
          | ok s₁ =>
            rw [telStep, hse] at hstep
            obtain rfl : (s₁, ([] : List Line)) = r₁ := Except.ok.inj hstep
            obtain ⟨os', rs', as', ms', ho', hr', ha', hm', rfl⟩ :=
              tel_on_step_end_ok_elim s logs s₁ hse
            by_cases hcase : logs.episode = e
            · subst hcase
              rw [ho] at ho'; cases ho'
              rw [hr] at hr'; cases hr'
              rw [ha] at ha'; cases ha'
              rw [hm] at hm'; cases hm'
              have ih := telRun_tracks logs.episode rest _ r₂ htouchr hrest
                (os ++ [logs.observation]) (rs ++ [logs.reward])
                (as ++ [logs.action]) (ms ++ [logs.metrics])
                (by simp [alookup_aset_self])
                (by simp [alookup_aset_self])
                (by simp [alookup_aset_self])
                (by simp [alookup_aset_self])
              simpa [stepField, List.filterMap_cons] using ih
            · have hne : e ≠ logs.episode := fun hc => hcase hc.symm
              have ih := telRun_tracks e rest _ r₂ htouchr hrest os rs as ms
                (by simpa [alookup_aset_ne _ hne] using ho)
                (by simpa [alookup_aset_ne _ hne] using hr)
                (by simpa [alookup_aset_ne _ hne] using ha)
                (by simpa [alookup_aset_ne _ hne] using hm)
              simpa [stepField, List.filterMap_cons, hcase] using ih
        | episodeEnd e' t =>
          have hne : e ≠ e' := by
            simp [touchesEpisode] at htouch1
            exact fun hc => htouch1 hc.symm
          rw [telStep] at hstep
          obtain ⟨start, obs', mets', mtext, rew', act', _, _, _, _, _, _, rfl⟩ :=
            tel_on_episode_end_ok_elim s e' t r₁ hstep
          have ih := telRun_tracks e rest _ r₂ htouchr hrest os rs as ms
            (by simpa [alookup_aerase_ne hne] using ho)
            (by simpa [alookup_aerase_ne hne] using hr)
            (by simpa [alookup_aerase_ne hne] using ha)
            (by simpa [alookup_aerase_ne hne] using hm)
          simpa [stepField, List.filterMap_cons] using ih

theorem stepField_length_eq_countP {α : Type} (f : StepLogs → α) (e : Nat) :
    ∀ evs : List TELEvent,
      (stepField f e evs).length = evs.countP (fun ev => isStepFor e ev)
  | [] => rfl
  | ev :: rest => by
    have ih := stepField_length_eq_countP f e rest
    cases ev with
    | episodeBegin e' t =>
      simpa [stepField, List.filterMap_cons, List.countP_cons, isStepFor] using ih
    | stepEnd logs =>
      by_cases hc : logs.episode = e <;>
        simpa [stepField, List.filterMap_cons, List.countP_cons, isStepFor, hc]
          using ih
    | episodeEnd e' t =>
      simpa [stepField, List.filterMap_cons, List.countP_cons, isStepFor] using ih

/-- Claim C3: for an episode opened by `on_episode_begin e` and closed by a
matching `on_episode_end e`, with arbitrary interleaved events that do not
touch episode `e`, the recorded observation, reward, action and metric
sequences each have length equal to the number of step-end events naming `e`
in between, and the printed episode reward is the sum of the recorded
per-step rewards. -/
theorem tel_episode_record_consistency (s : TELState) (e : Nat) (t t' : ℚ)
    (mid : List TELEvent) (r : TELState × List Line) (s₂ : TELState)
    (lines : List Line)
    (hmid : ∀ ev ∈ mid, touchesEpisode e ev = false)
    (hrun : telRun (tel_on_episode_begin s e t) mid = .ok r)
    (hend : tel_on_episode_end r.1 e t' = .ok (s₂, lines)) :
    alookup e r.1.observations = some (stepField StepLogs.observation e mid) ∧
    alookup e r.1.rewards = some (stepField StepLogs.reward e mid) ∧
    alookup e r.1.actions = some (stepField StepLogs.action e mid) ∧
    alookup e r.1.metrics = some (stepField StepLogs.metrics e mid) ∧
    (stepField StepLogs.observation e mid).length =
      mid.countP (fun ev => isStepFor e ev) ∧
    (stepField StepLogs.reward e mid).length =
      mid.countP (fun ev => isStepFor e ev) ∧
    (stepField StepLogs.action e mid).length =
      mid.countP (fun ev => isStepFor e ev) ∧
    (stepField StepLogs.metrics e mid).length =
      mid.countP (fun ev => isStepFor e ev) ∧
    summaryRewardOf lines = some (npSum (stepField StepLogs.reward e mid)) := by
  have htr := telRun_tracks e mid (tel_on_episode_begin s e t) r hmid hrun
    [] [] [] []
    (by simp [tel_on_episode_begin, alookup_aset_self])
    (by simp [tel_on_episode_begin, alookup_aset_self])
    (by simp [tel_on_episode_begin, alookup_aset_self])
    (by simp [tel_on_episode_begin, alookup_aset_self])
  simp only [List.nil_append] at htr
  obtain ⟨ho, hr, ha, hm⟩ := htr
  obtain ⟨start, obs, mets, mtext, rew, act, _, _, _, _, hr', _, hpair⟩ :=
    tel_on_episode_end_ok_elim r.1 e t' (s₂, lines) hend
  have hrew : rew = stepField StepLogs.reward e mid := by
    rw [hr] at hr'; exact (Option.some.inj hr').symm
  have hlines : lines = [Line.debugInt (ceilLog10 r.1.nbSteps + 1),
      Line.summary { step := r.1.step, nbSteps := r.1.nbSteps, episode := e + 1,
                     duration := t' - start, episodeSteps := obs.length,
                     sps := (obs.length : ℚ) / (t' - start),
                     episodeReward := npSum rew,
                     rewardMean := npMean rew, rewardMin := npMin rew,
                     rewardMax := npMax rew,
                     actionMean := npMean act, actionMin := npMin act,
                     actionMax := npMax act,
                     obsMean := npMean obs, obsMin := npMin obs,
                     obsMax := npMax obs,
                     metricsText := mtext }] := congrArg Prod.snd hpair
  refine ⟨ho, hr, ha, hm, stepField_length_eq_countP _ e mid,
    stepField_length_eq_countP _ e mid, stepField_length_eq_countP _ e mid,
    stepField_length_eq_countP _ e mid, ?_⟩
  rw [hlines, ← hrew]
  simp [summaryRewardOf, List.filterMap_cons]

theorem tel_episode_record_consistency_witness :
    alookup 0 ([(0, [1, 1, 1])] : List (Nat × List ℚ)) =
      some (stepField StepLogs.observation 0
        [TELEvent.stepEnd ⟨0, 1, 1, 1, [some 1]⟩, TELEvent.stepEnd ⟨0, 1, 1, 1, [some 1]⟩,
         TELEvent.stepEnd ⟨0, 1, 1, 1, [some 1]⟩]) ∧
    alookup 0 ([(0, [1, 1, 1])] : List (Nat × List ℚ)) =
      some (stepField StepLogs.reward 0
        [TELEvent.stepEnd ⟨0, 1, 1, 1, [some 1]⟩, TELEvent.stepEnd ⟨0, 1, 1, 1, [some 1]⟩,
         TELEvent.stepEnd ⟨0, 1, 1, 1, [some 1]⟩]) ∧
    alookup 0 ([(0, [1, 1, 1])] : List (Nat × List ℚ)) =
      some (stepField StepLogs.action 0
        [TELEvent.stepEnd ⟨0, 1, 1, 1, [some 1]⟩, TELEvent.stepEnd ⟨0, 1, 1, 1, [some 1]⟩,
         TELEvent.stepEnd ⟨0, 1, 1, 1, [some 1]⟩]) ∧
    alookup 0 ([(0, [[some 1], [some 1], [some 1]])] : List (Nat × List (List NFloat))) =
      some (stepField StepLogs.metrics 0
        [TELEvent.stepEnd ⟨0, 1, 1, 1, [some 1]⟩, TELEvent.stepEnd ⟨0, 1, 1, 1, [some 1]⟩,
         TELEvent.stepEnd ⟨0, 1, 1, 1, [some 1]⟩]) ∧
    (stepField StepLogs.observation 0
      [TELEvent.stepEnd ⟨0, 1, 1, 1, [some 1]⟩, TELEvent.stepEnd ⟨0, 1, 1, 1, [some 1]⟩,
       TELEvent.stepEnd ⟨0, 1, 1, 1, [some 1]⟩]).length = 3 ∧
    (stepField StepLogs.reward 0
      [TELEvent.stepEnd ⟨0, 1, 1, 1, [some 1]⟩, TELEvent.stepEnd ⟨0, 1, 1, 1, [some 1]⟩,
       TELEvent.stepEnd ⟨0, 1, 1, 1, [some 1]⟩]).length = 3 ∧
    (stepField StepLogs.action 0
      [TELEvent.stepEnd ⟨0, 1, 1, 1, [some 1]⟩, TELEvent.stepEnd ⟨0, 1, 1, 1, [some 1]⟩,
       TELEvent.stepEnd ⟨0, 1, 1, 1, [some 1]⟩]).length = 3 ∧
    (stepField StepLogs.metrics 0
      [TELEvent.stepEnd ⟨0, 1, 1, 1, [some 1]⟩, TELEvent.stepEnd ⟨0, 1, 1, 1, [some 1]⟩,
       TELEvent.stepEnd ⟨0, 1, 1, 1, [some 1]⟩]).length = 3 ∧
    summaryRewardOf
      [Line.debugInt 3,
       Line.summary { step := 3, nbSteps := 100, episode := 1, duration := 1,
                      episodeSteps := 3, sps := 3, episodeReward := 3,
                      rewardMean := 1, rewardMin := 1, rewardMax := 1,
                      actionMean := 1, actionMin := 1, actionMax := 1,
                      obsMean := 1, obsMin := 1, obsMax := 1,
                      metricsText := [("loss", some 1)] }] =
      some (npSum (stepField StepLogs.reward 0
        [TELEvent.stepEnd ⟨0, 1, 1, 1, [some 1]⟩, TELEvent.stepEnd ⟨0, 1, 1, 1, [some 1]⟩,
         TELEvent.stepEnd ⟨0, 1, 1, 1, [some 1]⟩])) := by
  have hc : ceilLog10 100 = 2 := by decide
  have hend : tel_on_episode_end
      ({ episodeStart := [(0, 0)], observations := [(0, [1, 1, 1])],
         rewards := [(0, [1, 1, 1])], actions := [(0, [1, 1, 1])],
         metrics := [(0, [[some 1], [some 1], [some 1]])], step := 3,
         metricsNames := ["loss"], nbSteps := 100 } : TELState) 0 1 =
      .ok ({ episodeStart := [], observations := [], rewards := [], actions := [],
             metrics := [], step := 3, metricsNames := ["loss"], nbSteps := 100 },
           [Line.debugInt 3,
            Line.summary { step := 3, nbSteps := 100, episode := 1, duration := 1,
                           episodeSteps := 3, sps := 3, episodeReward := 3,
                           rewardMean := 1, rewardMin := 1, rewardMax := 1,
                           actionMean := 1, actionMin := 1, actionMax := 1,
                           obsMean := 1, obsMin := 1, obsMax := 1,
                           metricsText := [("loss", some 1)] }]) := by
    norm_num [tel_on_episode_end, getKey, alookup, formatMetrics, nanmeanCol,
      nanmean, column, hc, npSum, npMean, npMin, npMax, aerase, exceptBind_ok,
      List.enum, List.enumFrom, List.filterMap_cons, List.sum_cons]
    simp
    rfl
  have h := tel_episode_record_consistency (telInit ["loss"] 100) 0 0 1
    [TELEvent.stepEnd ⟨0, 1, 1, 1, [some 1]⟩, TELEvent.stepEnd ⟨0, 1, 1, 1, [some 1]⟩,
     TELEvent.stepEnd ⟨0, 1, 1, 1, [some 1]⟩]
    ({ episodeStart := [(0, 0)], observations := [(0, [1, 1, 1])],
       rewards := [(0, [1, 1, 1])], actions := [(0, [1, 1, 1])],
       metrics := [(0, [[some 1], [some 1], [some 1]])], step := 3,
       metricsNames := ["loss"], nbSteps := 100 }, [])
    { episodeStart := [], observations := [], rewards := [], actions := [],
      metrics := [], step := 3, metricsNames := ["loss"], nbSteps := 100 }
    [Line.debugInt 3,
     Line.summary { step := 3, nbSteps := 100, episode := 1, duration := 1,
                    episodeSteps := 3, sps := 3, episodeReward := 3,
                    rewardMean := 1, rewardMin := 1, rewardMax := 1,
                    actionMean := 1, actionMin := 1, actionMax := 1,
                    obsMean := 1, obsMin := 1, obsMax := 1,
                    metricsText := [("loss", some 1)] }]
    (by decide) rfl hend
  obtain ⟨h1, h2, h3, h4, h5, h6, h7, h8, h9⟩ := h
  exact ⟨h1, h2, h3, h4, by rw [h5]; decide, by rw [h6]; decide,
    by rw [h7]; decide, by rw [h8]; decide, h9⟩

/-! ## Claim C1 -/

theorem pairwise_and {α : Type} {R S : α → α → Prop} :
    ∀ {l : List α}, l.Pairwise R → l.Pairwise S →
      l.Pairwise (fun a b => R a b ∧ S a b)
  | [], _, _ => List.Pairwise.nil
  | a :: t, hR, hS => by
    rw [List.pairwise_cons] at hR hS ⊢
    exact ⟨fun b hb => ⟨hR.1 b hb, hS.1 b hb⟩, pairwise_and hR.2 hS.2⟩

theorem pairwise_imp_mem {α : Type} {R S : α → α → Prop} :
    ∀ {l : List α}, (∀ a ∈ l, ∀ b ∈ l, R a b → S a b) → l.Pairwise R →
      l.Pairwise S
  | [], _, _ => List.Pairwise.nil
  | a :: t, h, hR => by
    rw [List.pairwise_cons] at hR ⊢
    refine ⟨fun b hb => h a (by simp) b (by simp [hb]) (hR.1 b hb), ?_⟩
    exact pairwise_imp_mem (fun x hx y hy => h x (by simp [hx]) y (by simp [hy])) hR.2

theorem nfLe_total (a b : NFloat) : nfLe a b = true ∨ nfLe b a = true := by
  cases a <;> cases b <;> simp [nfLe] <;> exact le_total _ _

theorem nfLe_trans {a b c : NFloat} (h1 : nfLe a b = true) (h2 : nfLe b c = true) :
    nfLe a c = true := by
  cases a <;> cases b <;> cases c <;> simp_all [nfLe] <;> exact le_trans h1 h2

theorem argsort_perm (ep : List NFloat) : (argsort ep).Perm (List.range ep.length) :=
  List.perm_insertionSort _ _

theorem argsort_length (ep : List NFloat) : (argsort ep).length = ep.length := by
  rw [(argsort_perm ep).length_eq, List.length_range]

theorem map_getD_range {α : Type} (d : α) :
    ∀ l : List α, (List.range l.length).map (fun i => l.getD i d) = l
  | [] => rfl
  | a :: t => by
    rw [List.length_cons, List.range_succ_eq_map]
    simp only [List.map_cons, List.getD_cons_zero, List.map_map]
    have hco : ((fun i => (a :: t).getD i d) ∘ (· + 1)) = fun i => t.getD i d := by
      funext i
      simp [List.getD_cons_succ]
    rw [hco, map_getD_range d t]

theorem argsort_sorted (ep : List NFloat) :
    List.Sorted (fun i j => nfLe (ep.getD i none) (ep.getD j none) = true)
      (argsort ep) := by
  haveI h1 : IsTotal Nat (fun i j => nfLe (ep.getD i none) (ep.getD j none) = true) :=
    ⟨fun i j => nfLe_total _ _⟩
  haveI h2 : IsTrans Nat (fun i j => nfLe (ep.getD i none) (ep.getD j none) = true) :=
    ⟨fun _ _ _ => nfLe_trans⟩
  exact List.sorted_insertionSort _ _

theorem alookup_map_snd {α β : Type} (k : String) (g : List α → β) :
    ∀ data : List (String × List α),
      alookup k (data.map (fun kv => (kv.1, g kv.2))) = (alookup k data).map g
  | [] => rfl
  | (k', v) :: rest => by
    by_cases h : k = k' <;> simp [alookup, h, alookup_map_snd k g rest]

/-- Claim C1: for a data table built from completed episodes (all columns as
long as the `episode` column, and episode ids pairwise distinct, since ids
identify episodes), `save_data` reorders every column by the one permutation
`argsort ep` (the `episode` column included), the reordered `episode` column
is a permutation of the original that is strictly ascending, and the file
receives exactly the JSON rendering of that reordered table — regardless of
the completion order recorded in `ep`. -/
theorem fl_save_data_sorts_by_episode (data : List (String × List NFloat))
    (ep : List NFloat)
    (hep : alookup "episode" data = some ep)
    (hlen : ∀ kv ∈ data, kv.2.length = ep.length)
    (hnd : ep.Nodup)
    (hsome : ∀ x ∈ ep, x.isSome = true) :
    sortedTable data =
      .ok (data.map (fun kv => (kv.1, (argsort ep).map (fun i => kv.2.getD i none)))) ∧
    alookup "episode"
        (data.map (fun kv => (kv.1, (argsort ep).map (fun i => kv.2.getD i none)))) =
      some ((argsort ep).map (fun i => ep.getD i none)) ∧
    ((argsort ep).map (fun i => ep.getD i none)).Perm ep ∧
    List.Sorted (fun a b : NFloat => a.getD 0 < b.getD 0)
      ((argsort ep).map (fun i => ep.getD i none)) ∧
    (∀ s : FLState, s.data = data →
      save_data s = .ok { s with
        file := fileWrite0 s.file (renderJson
          (data.map (fun kv => (kv.1, (argsort ep).map (fun i => kv.2.getD i none))))) }) := by
  have hall : data.all (fun kv => kv.2.length == (argsort ep).length) = true :=
    List.all_eq_true.mpr fun kv hkv => by simp [hlen kv hkv, argsort_length]
  have hsorted : sortedTable data =
      .ok (data.map (fun kv => (kv.1, (argsort ep).map (fun i => kv.2.getD i none)))) := by
    simp [sortedTable, hep, hall]
  have hperm : ((argsort ep).map (fun i => ep.getD i none)).Perm ep := by
    have hp := (argsort_perm ep).map (fun i => ep.getD i none)
    rwa [map_getD_range] at hp
  refine ⟨hsorted, ?_, hperm, ?_, ?_⟩
  · rw [alookup_map_snd "episode" (fun v => (argsort ep).map (fun i => v.getD i none)) data,
      hep]
    rfl
  · have hpw : ((argsort ep).map (fun i => ep.getD i none)).Pairwise
        (fun a b => nfLe a b = true) := by
      rw [List.pairwise_map]
      exact argsort_sorted ep
    have hnd' : ((argsort ep).map (fun i => ep.getD i none)).Pairwise (· ≠ ·) :=
      hperm.nodup_iff.mpr hnd
    refine pairwise_imp_mem ?_ (pairwise_and hpw hnd')
    rintro a ha b hb ⟨hle, hne⟩
    obtain ⟨qa, rfl⟩ := Option.isSome_iff_exists.mp (hsome a (hperm.mem_iff.mp ha))
    obtain ⟨qb, rfl⟩ := Option.isSome_iff_exists.mp (hsome b (hperm.mem_iff.mp hb))
    simp only [nfLe, decide_eq_true_eq] at hle
    simp only [Option.getD_some]
    exact lt_of_le_of_ne hle (fun hq => hne (by rw [hq]))
  · intro s hs
    have hne : s.data.isEmpty = false := by
      rw [hs]
      cases data with
      | nil => simp [alookup] at hep
      | cons kv rest => rfl
    unfold save_data
    rw [hs] at hne ⊢
    simp [hne, hsorted, exceptBind_ok]

theorem fl_save_data_sorts_by_episode_witness :
    sortedTable [("episode", [some 3, some 1, some 2]),
                 ("duration", [some 30, some 10, some 20])] =
      .ok ([("episode", [some 3, some 1, some 2]),
            ("duration", [some 30, some 10, some 20])].map
        (fun kv => (kv.1,
          (argsort [some 3, some 1, some 2]).map (fun i => kv.2.getD i none)))) ∧
    ((argsort [some 3, some 1, some 2]).map
        (fun i => ([some 3, some 1, some 2] : List NFloat).getD i none)).Perm
      [some 3, some 1, some 2] ∧
    List.Sorted (fun a b : NFloat => a.getD 0 < b.getD 0)
      ((argsort [some 3, some 1, some 2]).map
        (fun i => ([some 3, some 1, some 2] : List NFloat).getD i none)) ∧
    (argsort [some 3, some 1, some 2]).map
        (fun i => ([some 3, some 1, some 2] : List NFloat).getD i none) =
      [some 1, some 2, some 3] := by
  have h := fl_save_data_sorts_by_episode
    [("episode", [some 3, some 1, some 2]), ("duration", [some 30, some 10, some 20])]
    [some 3, some 1, some 2] rfl (by decide)
    (by norm_num [List.nodup_cons]) (by decide)
  refine ⟨h.1, h.2.2.1, h.2.2.2.1, ?_⟩
  norm_num [argsort, List.insertionSort, List.orderedInsert, nfLe, List.range_succ]

end KerasRL
